import Mathlib

/-!
# Verification of the recurrent-module parameter manager (torch::nn RNN base)

Shallow embedding of `torch/nn/modules/rnn.h` (the `RNNImplBase` template and
its `RNN`/`LSTM`/`GRU` subclasses) together with the weight-layout and
flattening/aliasing-detection protocol it declares.  The header in the
repository carries the full body of `cudnnmode_get_enum` and the declarations
and doc comments of the remaining operations; the bodies of those operations
live outside the visible sources, so they are modelled from the specification
(each such definition is marked `Modelled from the spec:`).

Tensors are modelled at the bookkeeping level the component works at: a
storage identity (for aliasing detection), a shape, a device, a dtype and an
abstract value tag.  Tensor arithmetic, autodiff and the recurrence math are
external collaborators and are represented only through their shape contracts.
-/

namespace TorchRNN

/-- A tensor as seen by the parameter manager: a shared-storage reference with
a storage identity (two tensors alias iff their storage identities coincide),
a shape, a device, a dtype, and an abstract tag standing for its values. -/
structure Tensor where
  storage : Nat
  shape : List Nat
  device : Nat
  dtype : Nat
  val : Int
deriving DecidableEq, Repr

instance : Inhabited Tensor := ⟨⟨0, [], 0, 0, 0⟩⟩

/-- The `c10` enum tags that can populate the nonlinearity/variant argument of
`cudnnmode_get_enum` (`enumtype::kReLU`, `enumtype::kTanh`, and other tags a
caller could route through the generic lookup). -/
inductive Enumtype where
  | kReLU
  | kTanh
  | kSigmoid
  | kGELU
  | kLSTM
  | kGRU
deriving DecidableEq, Repr

/-- Embeds `torch::enumtype::get_enum_name`: printable name of an enum tag. -/
def get_enum_name : Enumtype → String
  | .kReLU => "kReLU"
  | .kTanh => "kTanh"
  | .kSigmoid => "kSigmoid"
  | .kGELU => "kGELU"
  | .kLSTM => "kLSTM"
  | .kGRU => "kGRU"

/-- Embeds `RNNImplBase::CuDNNMode`; the codes line up with the cuDNN mode codes
(`RNN_RELU = 0, RNN_TANH = 1, LSTM = 2, GRU = 3`). -/
inductive CuDNNMode where
  | RNN_RELU
  | RNN_TANH
  | LSTM
  | GRU
deriving DecidableEq, Repr

/-- Embeds `RNNImplBase::cudnnmode_get_enum` (body present in the header):
`get_if<kReLU>` yields `RNN_RELU`; `get_if<kTanh>` yields `RNN_RELU` as well;
every other tag falls into the `TORCH_CHECK(false, ...)` branch, which raises
(modelled as `Except.error` carrying the message the check builds). -/
def cudnnmode_get_enum (variant_enum : Enumtype) : Except String CuDNNMode :=
  match variant_enum with
  | .kReLU => Except.ok CuDNNMode.RNN_RELU
  | .kTanh => Except.ok CuDNNMode.RNN_RELU
  | v => Except.error (get_enum_name v ++ " is not a valid value for CuDNNMode")

/-- Embeds `RNNOptionsBase`: layer count, input size, hidden size, bias flag,
dropout (abstracted to a rational-free tag, unused by the claims),
bidirectionality and batch-first layout flag. -/
structure RNNOptionsBase where
  input_size : Nat
  hidden_size : Nat
  layers : Nat
  with_bias : Bool
  bidirectional : Bool
  batch_first : Bool
deriving DecidableEq, Repr

/-- Number of directions: 2 when bidirectional, else 1. -/
def num_directions (o : RNNOptionsBase) : Nat :=
  if o.bidirectional then 2 else 1

/-- The state of an `RNNImplBase` module: its options, gate count, optional
cuDNN mode, the four owned parameter sequences, and the cached result of the
latest `flat_weights()` call (`flat_weights_`). -/
structure RNNState where
  options : RNNOptionsBase
  number_of_gates : Nat
  cudnn_mode : Option CuDNNMode
  w_ih : List Tensor
  w_hh : List Tensor
  b_ih : List Tensor
  b_hh : List Tensor
  flat_weights_ : List Tensor
deriving DecidableEq, Repr

/-- All owned parameters of the module, weights then biases, in registration
order. -/
def all_params (s : RNNState) : List Tensor :=
  s.w_ih ++ s.w_hh ++ s.b_ih ++ s.b_hh

/-- Pairwise storage-identity comparison over a list of tensors: `true` iff
two tensors at distinct positions share the same underlying storage. -/
def pairwiseAlias : List Tensor → Bool
  | [] => false
  | t :: ts => ts.any (fun u => t.storage == u.storage) || pairwiseAlias ts

/-- Embeds `RNNImplBase::any_parameters_alias`.  Modelled from the spec: a pure
query that compares the distinct storage identities of every owned
weight/bias tensor pairwise and returns true iff any two distinct logical
parameters share the same underlying storage. -/
def any_parameters_alias (s : RNNState) : Bool :=
  pairwiseAlias (all_params s)

/-- Per-layer interleaving of the four parameter sequences in the order
(w_ih, w_hh, b_ih, b_hh). -/
def interleave4 : List Tensor → List Tensor → List Tensor → List Tensor → List Tensor
  | wi :: wis, wh :: whs, bi :: bis, bh :: bhs =>
      wi :: wh :: bi :: bh :: interleave4 wis whs bis bhs
  | _, _, _, _ => []

/-- Per-layer interleaving of the two weight sequences (bias disabled). -/
def interleave2 : List Tensor → List Tensor → List Tensor
  | wi :: wis, wh :: whs => wi :: wh :: interleave2 wis whs
  | _, _ => []

/-- Embeds `RNNImplBase::flat_weights` (declared in the header: a flat vector of all
weights, layer weights following each other sequentially in
(w_ih, w_hh, b_ih, b_hh) order).  Modelled from the spec: the cached
concatenation-order view interleaves the four sequences per layer in the
order (inputWeight, hiddenWeight, inputBias, hiddenBias), the bias entries
present only when bias is enabled. -/
def flat_weights (s : RNNState) : List Tensor :=
  if s.options.with_bias then interleave4 s.w_ih s.w_hh s.b_ih s.b_hh
  else interleave2 s.w_ih s.w_hh

/-- Modelled from the spec: the backend/data-type/device compatibility
condition for the flattening fast path — a backend mode must be configured
and every owned parameter must live on one common non-CPU device with one
common dtype (device 0 is the CPU). -/
def backend_compatible (s : RNNState) : Bool :=
  s.cudnn_mode.isSome &&
    match all_params s with
    | [] => false
    | t :: ts =>
        t.device != 0 && ts.all (fun u => u.device == t.device && u.dtype == t.dtype)

/-- Embeds `RNNImplBase::flatten_parameters`.  Modelled from the spec: run
`any_parameters_alias`; if aliasing or incompatible backend/data-type/device
conditions are detected, clear the cache and return without error (silent
slow-path degradation); otherwise rebuild `flat_weights_` as the fixed
per-layer interleave over the existing tensors.  The operation is total: it
never raises. -/
def flatten_parameters (s : RNNState) : RNNState :=
  if any_parameters_alias s || !backend_compatible s then
    { s with flat_weights_ := [] }
  else
    { s with flat_weights_ := flat_weights s }

/-- Modelled from the spec: the value a parameter receives from the variant's
initialization scheme (a uniform draw scaled by 1/sqrt(hiddenSize) in the
backend; abstracted here to a deterministic tag of the hidden size, since
tensor values are owned by the external backend). -/
def uniformInit (hidden_size : Nat) : Int :=
  Int.ofNat hidden_size

/-- Re-initialization of one owned tensor: values are re-drawn; storage
identity, shape, device and dtype are untouched. -/
def initTensor (hidden_size : Nat) (t : Tensor) : Tensor :=
  { t with val := uniformInit hidden_size }

/-- Value re-initialization of every owned parameter sequence. -/
def reinitParams (s : RNNState) : RNNState :=
  { s with
    w_ih := s.w_ih.map (initTensor s.options.hidden_size)
    w_hh := s.w_hh.map (initTensor s.options.hidden_size)
    b_ih := s.b_ih.map (initTensor s.options.hidden_size)
    b_hh := s.b_hh.map (initTensor s.options.hidden_size) }

/-- Embeds `RNNImplBase::reset`.  Modelled from the spec: re-initializes every owned
weight and bias tensor's values via the variant's initialization scheme, then
calls `flatten_parameters`. -/
def reset (s : RNNState) : RNNState :=
  flatten_parameters (reinitParams s)

/-- Input feature size of a layer slot: the first layer reads the module
input, every later layer reads the concatenated directions of the hidden
output below. -/
def layer_input_size (o : RNNOptionsBase) (idx : Nat) : Nat :=
  if idx < num_directions o then o.input_size
  else o.hidden_size * num_directions o

/-- The allocation phase of `RNNImplBase::RNNImplBase`.  Modelled from the
spec: allocates `layers * (bidirectional ? 2 : 1)` sets of
(inputWeight, hiddenWeight, inputBias, hiddenBias) tensors with the derived
shapes (`[gates*hidden, in-or-hidden]` weights, `[gates*hidden]` biases) on
freshly allocated, pairwise distinct storages (storage identities
`base + 4*i + k`) and registers them.  Bias sequences are left empty when
bias is disabled. -/
def constructBase (o : RNNOptionsBase) (mode : Option CuDNNMode)
    (gates : Nat) (device dtype base : Nat) : RNNState :=
  { options := o
    number_of_gates := gates
    cudnn_mode := mode
    w_ih := (List.range (o.layers * num_directions o)).map fun i =>
      ⟨base + 4 * i, [gates * o.hidden_size, layer_input_size o i], device, dtype, 0⟩
    w_hh := (List.range (o.layers * num_directions o)).map fun i =>
      ⟨base + 4 * i + 1, [gates * o.hidden_size, o.hidden_size], device, dtype, 0⟩
    b_ih :=
      if o.with_bias then
        (List.range (o.layers * num_directions o)).map fun i =>
          ⟨base + 4 * i + 2, [gates * o.hidden_size], device, dtype, 0⟩
      else []
    b_hh :=
      if o.with_bias then
        (List.range (o.layers * num_directions o)).map fun i =>
          ⟨base + 4 * i + 3, [gates * o.hidden_size], device, dtype, 0⟩
      else []
    flat_weights_ := [] }

/-- Embeds `RNNImplBase::RNNImplBase` (the constructor).  Modelled from the spec:
performs the allocation phase and then invokes `reset`. -/
def construct (o : RNNOptionsBase) (mode : Option CuDNNMode)
    (gates : Nat) (device dtype base : Nat) : RNNState :=
  reset (constructBase o mode gates device dtype base)

/-- Embeds `RNNImplBase::to` (device/dtype transfer).  Modelled from the spec:
performs the original transfer on every owned tensor, then calls
`flatten_parameters` afterward. -/
def toDeviceDtype (s : RNNState) (device dtype : Nat) : RNNState :=
  flatten_parameters
    { s with
      w_ih := s.w_ih.map fun t => { t with device := device, dtype := dtype }
      w_hh := s.w_hh.map fun t => { t with device := device, dtype := dtype }
      b_ih := s.b_ih.map fun t => { t with device := device, dtype := dtype }
      b_hh := s.b_hh.map fun t => { t with device := device, dtype := dtype } }

/-- The structural invariant of a constructed module: the weight sequences
both have length `layers * num_directions`; the bias sequences have that same
length when bias is enabled and are empty otherwise; every weight and bias
tensor has the shape derived from `number_of_gates * hidden_size`. -/
def WellFormed (s : RNNState) : Prop :=
  s.w_ih.length = s.options.layers * num_directions s.options ∧
  s.w_hh.length = s.options.layers * num_directions s.options ∧
  (if s.options.with_bias then
      s.b_ih.length = s.options.layers * num_directions s.options ∧
      s.b_hh.length = s.options.layers * num_directions s.options
    else s.b_ih = [] ∧ s.b_hh = []) ∧
  (∀ t ∈ s.w_ih, t.shape.head? = some (s.number_of_gates * s.options.hidden_size)) ∧
  (∀ t ∈ s.w_hh, t.shape = [s.number_of_gates * s.options.hidden_size, s.options.hidden_size]) ∧
  (∀ t ∈ s.b_ih, t.shape = [s.number_of_gates * s.options.hidden_size]) ∧
  (∀ t ∈ s.b_hh, t.shape = [s.number_of_gates * s.options.hidden_size])

instance (s : RNNState) : Decidable (WellFormed s) := by
  unfold WellFormed
  exact inferInstance

/-- A flattened-weights cache consistent with the current tensor identities:
either cleared (slow path) or equal to the interleaved view of the current
owned tensors. -/
def cacheConsistent (s : RNNState) : Prop :=
  s.flat_weights_ = [] ∨ s.flat_weights_ = flat_weights s

/-! ## Forward state representation

The recurrence math is an external collaborator; forward passes are embedded
at the shape level only.  The state of a PlainRNN/GRU forward pass is a
single tensor, the state of an LSTM forward pass is a 2-tuple
(hidden, cell) — a structurally distinct branch. -/

/-- Shape of one variant state tensor:
`(layers * (bidirectional ? 2 : 1), batch, hiddenSize)`. -/
def stateShape (o : RNNOptionsBase) (batch : Nat) : List Nat :=
  [o.layers * num_directions o, batch, o.hidden_size]

/-- Shape of the forward output over all time steps:
`(sequence, batch, directions*hidden)`, with the first two axes swapped when
`batch_first` is set. -/
def outputShape (o : RNNOptionsBase) (seq batch : Nat) : List Nat :=
  if o.batch_first then [batch, seq, o.hidden_size * num_directions o]
  else [seq, batch, o.hidden_size * num_directions o]

/-- Modelled from the spec: the zero state the backend allocates at the right
shape/device/dtype when `forward` is invoked with the state absent. -/
def zeroState (o : RNNOptionsBase) (batch device dtype : Nat) : Tensor :=
  ⟨0, stateShape o batch, device, dtype, 0⟩

/-- The output of a single invocation of `forward` for the single-state
variants (`RNNOutput` in the header): the result tensor and the new, updated
state that can be fed into the next forward step. -/
structure RNNOutput where
  output : Tensor
  state : Tensor
deriving DecidableEq, Repr

/-- The output of an LSTM forward pass, modelled from the spec: LSTM must
pack/unpack a 2-tuple state (hidden, cell) instead of a single state tensor. -/
structure LSTMOutput where
  output : Tensor
  hidden : Tensor
  cell : Tensor
deriving DecidableEq, Repr

/-- Modelled from the spec: the external recurrence compute function at the
shape level — it consumes (input, state, flat parameter list, flags) and
returns `(output, finalState)` where the output covers all time steps and the
final state has the same shape as the initial state it was given. -/
def backendStep (o : RNNOptionsBase) (seq batch : Nat) (st : Tensor) : Tensor × Tensor :=
  (⟨0, outputShape o seq batch, st.device, st.dtype, 0⟩,
   ⟨0, st.shape, st.device, st.dtype, 0⟩)

/-- Embeds `RNNImplBase::generic_forward` (used for RNN and GRU, not LSTM).
Modelled from the spec: a thin adapter that defaults an absent initial state
to a zero state of the right shape, forwards into `flat_weights`, and returns
the backend's `(output, state)` pair. -/
def generic_forward (s : RNNState) (seq batch device dtype : Nat)
    (state : Option Tensor) : RNNOutput :=
  let st := state.getD (zeroState s.options batch device dtype)
  let r := backendStep s.options seq batch st
  { output := r.1, state := r.2 }

/-- Embeds `RNNImpl::forward`.  Modelled from the spec: selects the plain-RNN
backend function and delegates to `generic_forward` with a single state
tensor. -/
def rnn_forward (s : RNNState) (seq batch device dtype : Nat)
    (state : Option Tensor) : RNNOutput :=
  generic_forward s seq batch device dtype state

/-- Embeds `GRUImpl::forward`.  Modelled from the spec: selects the GRU backend
function and delegates to `generic_forward` with a single state tensor. -/
def gru_forward (s : RNNState) (seq batch device dtype : Nat)
    (state : Option Tensor) : RNNOutput :=
  generic_forward s seq batch device dtype state

/-- Embeds `LSTMImpl::forward`.  Modelled from the spec: LSTM is a distinct branch
that unpacks a 2-tuple state (hidden, cell) — defaulting each component to a
zero state when absent — runs the backend on both components, and packs the
resulting (hidden, cell) pair back into its output. -/
def lstm_forward (s : RNNState) (seq batch device dtype : Nat)
    (state : Option (Tensor × Tensor)) : LSTMOutput :=
  let hc := state.getD
    (zeroState s.options batch device dtype, zeroState s.options batch device dtype)
  let rh := backendStep s.options seq batch hc.1
  let rc := backendStep s.options seq batch hc.2
  { output := rh.1, hidden := rh.2, cell := rc.2 }

/-! ## Concrete sample configurations -/

/-- A small concrete options record (input 2, hidden 3, one unidirectional
layer with bias) used to instantiate the theorems. -/
def sampleOptions : RNNOptionsBase :=
  { input_size := 2
    hidden_size := 3
    layers := 1
    with_bias := true
    bidirectional := false
    batch_first := false }

/-- A freshly constructed module over `sampleOptions` on device 1. -/
def sampleModule : RNNState :=
  construct sampleOptions (some CuDNNMode.RNN_RELU) 1 1 0 100

/-- State of `sampleModule` after its hidden weights were replaced (in place) by its
input weights — two distinct logical parameters now share storage. -/
def aliasedModule : RNNState :=
  { sampleModule with w_hh := sampleModule.w_ih }

/-! ## Helper lemmas -/

lemma pairwiseAlias_true_iff (l : List Tensor) :
    pairwiseAlias l = true ↔ ¬ (l.map Tensor.storage).Nodup := by
  induction l with
  | nil => simp [pairwiseAlias]
  | cons t ts ih =>
      simp only [pairwiseAlias, Bool.or_eq_true, List.any_eq_true, beq_iff_eq,
        List.map_cons, List.nodup_cons, List.mem_map, ih, not_and_or, not_forall, not_not]
      constructor
      · rintro (⟨u, hu, he⟩ | h)
        · exact Or.inl ⟨u, hu, he.symm⟩
        · exact Or.inr h
      · rintro (⟨u, hu, he⟩ | h)
        · exact Or.inl ⟨u, hu, he.symm⟩
        · exact Or.inr h

lemma pairwiseAlias_false_iff (l : List Tensor) :
    pairwiseAlias l = false ↔ (l.map Tensor.storage).Nodup := by
  rw [← Bool.not_eq_true, pairwiseAlias_true_iff, not_not]

lemma pairwiseAlias_storage_eq {l₁ l₂ : List Tensor}
    (h : l₁.map Tensor.storage = l₂.map Tensor.storage) :
    pairwiseAlias l₁ = pairwiseAlias l₂ := by
  rcases hb : pairwiseAlias l₁ with _ | _
  · have hn := (pairwiseAlias_false_iff l₁).mp hb
    rw [h] at hn
    exact ((pairwiseAlias_false_iff l₂).mpr hn).symm
  · have hn := (pairwiseAlias_true_iff l₁).mp hb
    rw [h] at hn
    exact ((pairwiseAlias_true_iff l₂).mpr hn).symm

lemma interleave4_length : ∀ a b c d : List Tensor,
    a.length = b.length → a.length = c.length → a.length = d.length →
    (interleave4 a b c d).length = 4 * a.length := by
  intro a
  induction a with
  | nil =>
      intro b c d hb hc hd
      cases b with
      | nil => cases c with
        | nil => cases d with
          | nil => simp [interleave4]
          | cons w ds => simp at hd
        | cons z cs => simp at hc
      | cons y bs => simp at hb
  | cons x as ih =>
      intro b c d hb hc hd
      cases b with
      | nil => simp at hb
      | cons y bs =>
        cases c with
        | nil => simp at hc
        | cons z cs =>
          cases d with
          | nil => simp at hd
          | cons w ds =>
            simp only [List.length_cons] at hb hc hd
            have := ih bs cs ds (by omega) (by omega) (by omega)
            simp only [interleave4, List.length_cons, this]
            omega

lemma interleave2_length : ∀ a b : List Tensor,
    a.length = b.length → (interleave2 a b).length = 2 * a.length := by
  intro a
  induction a with
  | nil =>
      intro b hb
      cases b with
      | nil => simp [interleave2]
      | cons y bs => simp at hb
  | cons x as ih =>
      intro b hb
      cases b with
      | nil => simp at hb
      | cons y bs =>
        simp only [List.length_cons] at hb
        have := ih bs (by omega)
        simp only [interleave2, List.length_cons, this]
        omega

lemma interleave4_count (x : Tensor) : ∀ a b c d : List Tensor,
    a.length = b.length → a.length = c.length → a.length = d.length →
    (interleave4 a b c d).count x = a.count x + b.count x + c.count x + d.count x := by
  intro a
  induction a with
  | nil =>
      intro b c d hb hc hd
      have hbn : b = [] := List.length_eq_zero.mp hb.symm
      have hcn : c = [] := List.length_eq_zero.mp hc.symm
      have hdn : d = [] := List.length_eq_zero.mp hd.symm
      subst hbn hcn hdn
      simp [interleave4]
  | cons t as ih =>
      intro b c d hb hc hd
      cases b with
      | nil => simp at hb
      | cons y bs =>
        cases c with
        | nil => simp at hc
        | cons z cs =>
          cases d with
          | nil => simp at hd
          | cons w ds =>
            simp only [List.length_cons] at hb hc hd
            simp only [interleave4, List.count_cons, ih bs cs ds (by omega) (by omega) (by omega)]
            split_ifs <;> omega

lemma interleave2_count (x : Tensor) : ∀ a b : List Tensor,
    a.length = b.length →
    (interleave2 a b).count x = a.count x + b.count x := by
  intro a
  induction a with
  | nil =>
      intro b hb
      have hbn : b = [] := List.length_eq_zero.mp hb.symm
      subst hbn
      simp [interleave2]
  | cons t as ih =>
      intro b hb
      cases b with
      | nil => simp at hb
      | cons y bs =>
        simp only [List.length_cons] at hb
        simp only [interleave2, List.count_cons, ih bs (by omega)]
        split_ifs <;> omega

lemma interleave4_perm (a b c d : List Tensor)
    (hb : a.length = b.length) (hc : a.length = c.length) (hd : a.length = d.length) :
    (interleave4 a b c d).Perm (a ++ b ++ c ++ d) := by
  rw [List.perm_iff_count]
  intro x
  simp only [List.count_append, interleave4_count x a b c d hb hc hd]

lemma interleave2_perm (a b : List Tensor) (hb : a.length = b.length) :
    (interleave2 a b).Perm (a ++ b) := by
  rw [List.perm_iff_count]
  intro x
  simp only [List.count_append, interleave2_count x a b hb]

lemma all_params_flatten (s : RNNState) :
    all_params (flatten_parameters s) = all_params s := by
  rw [flatten_parameters]
  split <;> rfl

lemma options_flatten (s : RNNState) :
    (flatten_parameters s).options = s.options := by
  rw [flatten_parameters]
  split <;> rfl

lemma flat_weights_flatten (s : RNNState) :
    flat_weights (flatten_parameters s) = flat_weights s := by
  rw [flatten_parameters]
  split <;> rfl

lemma options_reset (s : RNNState) : (reset s).options = s.options :=
  options_flatten (reinitParams s)

lemma storages_reinit (s : RNNState) :
    (all_params (reinitParams s)).map Tensor.storage = (all_params s).map Tensor.storage := by
  have hmap : ∀ l : List Tensor,
      (l.map (initTensor s.options.hidden_size)).map Tensor.storage = l.map Tensor.storage := by
    intro l
    rw [List.map_map]
    rfl
  simp [reinitParams, all_params, hmap]

lemma any_parameters_alias_flatten (s : RNNState) :
    any_parameters_alias (flatten_parameters s) = any_parameters_alias s := by
  rw [any_parameters_alias, any_parameters_alias, all_params_flatten]

lemma any_parameters_alias_reset (s : RNNState) :
    any_parameters_alias (reset s) = any_parameters_alias s := by
  rw [reset, any_parameters_alias_flatten, any_parameters_alias, any_parameters_alias]
  exact pairwiseAlias_storage_eq (storages_reinit s)

lemma flat_weights_perm (s : RNNState) (h : WellFormed s) :
    (flat_weights s).Perm (all_params s) := by
  obtain ⟨h1, h2, h3, -⟩ := h
  rcases hb : s.options.with_bias with _ | _
  · rw [hb, if_neg (by simp)] at h3
    rw [flat_weights, if_neg (by simp [hb]), all_params, h3.1, h3.2]
    simpa using interleave2_perm s.w_ih s.w_hh (by omega)
  · rw [hb, if_pos rfl] at h3
    rw [flat_weights, if_pos (by simp [hb]), all_params]
    exact interleave4_perm s.w_ih s.w_hh s.b_ih s.b_hh (by omega) (by omega) (by omega)

lemma pairwiseAlias_flat_weights (s : RNNState) (h : WellFormed s)
    (ha : any_parameters_alias s = false) :
    pairwiseAlias (flat_weights s) = false := by
  rw [any_parameters_alias, pairwiseAlias_false_iff] at ha
  rw [pairwiseAlias_false_iff]
  exact (((flat_weights_perm s h).map Tensor.storage).nodup_iff).mpr ha

lemma wellFormed_flatten {s : RNNState} (h : WellFormed s) :
    WellFormed (flatten_parameters s) := by
  rw [flatten_parameters]
  split
  · exact h
  · exact h

lemma wellFormed_mapParams {s : RNNState} {f : Tensor → Tensor}
    (hf : ∀ t, (f t).shape = t.shape) (h : WellFormed s) :
    WellFormed
      { s with
        w_ih := s.w_ih.map f
        w_hh := s.w_hh.map f
        b_ih := s.b_ih.map f
        b_hh := s.b_hh.map f } := by
  obtain ⟨h1, h2, h3, h4, h5, h6, h7⟩ := h
  refine ⟨by simpa using h1, by simpa using h2, ?_, ?_, ?_, ?_, ?_⟩
  · rcases hb : s.options.with_bias with _ | _ <;> rw [hb] at h3 <;> simp_all
  · intro t ht
    simp only [List.mem_map] at ht
    obtain ⟨u, hu, rfl⟩ := ht
    simpa [hf u] using h4 u hu
  · intro t ht
    simp only [List.mem_map] at ht
    obtain ⟨u, hu, rfl⟩ := ht
    simpa [hf u] using h5 u hu
  · intro t ht
    simp only [List.mem_map] at ht
    obtain ⟨u, hu, rfl⟩ := ht
    simpa [hf u] using h6 u hu
  · intro t ht
    simp only [List.mem_map] at ht
    obtain ⟨u, hu, rfl⟩ := ht
    simpa [hf u] using h7 u hu

lemma wellFormed_reinit {s : RNNState} (h : WellFormed s) :
    WellFormed (reinitParams s) :=
  @wellFormed_mapParams s (initTensor s.options.hidden_size) (fun _ => rfl) h

lemma wellFormed_reset {s : RNNState} (h : WellFormed s) :
    WellFormed (reset s) :=
  wellFormed_flatten (wellFormed_reinit h)

lemma wellFormed_toDeviceDtype {s : RNNState} (h : WellFormed s) (device dtype : Nat) :
    WellFormed (toDeviceDtype s device dtype) :=
  wellFormed_flatten
    (@wellFormed_mapParams s (fun t => { t with device := device, dtype := dtype })
      (fun _ => rfl) h)

lemma cacheConsistent_flatten (s : RNNState) :
    cacheConsistent (flatten_parameters s) := by
  unfold cacheConsistent
  rw [flat_weights_flatten]
  rw [flatten_parameters]
  split
  · exact Or.inl rfl
  · exact Or.inr rfl

lemma cacheConsistent_reset (s : RNNState) : cacheConsistent (reset s) :=
  cacheConsistent_flatten (reinitParams s)

lemma nodup_map_range {f : Nat → Nat} (n : Nat) (h : ∀ i j, f i = f j → i = j) :
    ((List.range n).map f).Nodup :=
  List.Nodup.map (fun a b hab => h a b hab) (List.nodup_range n)

lemma disjoint_map_range {f g : Nat → Nat} (n : Nat) (h : ∀ i j, f i ≠ g j) :
    List.Disjoint ((List.range n).map f) ((List.range n).map g) := by
  intro x hx hy
  simp only [List.mem_map, List.mem_range] at hx hy
  obtain ⟨i, -, rfl⟩ := hx
  obtain ⟨j, -, hj⟩ := hy
  exact h i j hj.symm

lemma nodup_storages4 (n base : Nat) :
    (((List.range n).map fun i => base + 4*i) ++ ((List.range n).map fun i => base + 4*i + 1) ++
     ((List.range n).map fun i => base + 4*i + 2) ++
     ((List.range n).map fun i => base + 4*i + 3)).Nodup := by
  rw [List.nodup_append, List.nodup_append, List.nodup_append]
  refine ⟨⟨⟨?_, ?_, ?_⟩, ?_, ?_⟩, ?_, ?_⟩
  · exact nodup_map_range n (fun i j h => by omega)
  · exact nodup_map_range n (fun i j h => by omega)
  · exact disjoint_map_range n (fun i j => by omega)
  · exact nodup_map_range n (fun i j h => by omega)
  · rw [List.disjoint_append_left]
    exact ⟨disjoint_map_range n (fun i j => by omega), disjoint_map_range n (fun i j => by omega)⟩
  · exact nodup_map_range n (fun i j h => by omega)
  · rw [List.disjoint_append_left, List.disjoint_append_left]
    exact ⟨⟨disjoint_map_range n (fun i j => by omega), disjoint_map_range n (fun i j => by omega)⟩,
      disjoint_map_range n (fun i j => by omega)⟩

lemma nodup_storages2 (n base : Nat) :
    (((List.range n).map fun i => base + 4*i) ++
     ((List.range n).map fun i => base + 4*i + 1)).Nodup := by
  rw [List.nodup_append]
  exact ⟨nodup_map_range n (fun i j h => by omega),
    nodup_map_range n (fun i j h => by omega),
    disjoint_map_range n (fun i j => by omega)⟩

lemma interleave4_getElem : ∀ (ws xs ys zs : List Tensor) (i : Nat),
    ws.length = xs.length → ws.length = ys.length → ws.length = zs.length → i < ws.length →
    (interleave4 ws xs ys zs)[4*i]? = ws[i]? ∧ (interleave4 ws xs ys zs)[4*i+1]? = xs[i]? ∧
    (interleave4 ws xs ys zs)[4*i+2]? = ys[i]? ∧ (interleave4 ws xs ys zs)[4*i+3]? = zs[i]? := by
  intro ws
  induction ws with
  | nil =>
      intro xs ys zs i hb hc hd hi
      simp at hi
  | cons x as ih =>
      intro xs ys zs i hb hc hd hi
      cases xs with
      | nil => simp at hb
      | cons y bs =>
        cases ys with
        | nil => simp at hc
        | cons z cs =>
          cases zs with
          | nil => simp at hd
          | cons w ds =>
            simp only [List.length_cons] at hb hc hd hi
            cases i with
            | zero => simp [interleave4]
            | succ i =>
                have e0 : 4 * (i+1) = 4*i+1+1+1+1 := by ring
                have e1 : 4 * (i+1) + 1 = 4*i+1+1+1+1+1 := by ring
                have e2 : 4 * (i+1) + 2 = 4*i+2+1+1+1+1 := by ring
                have e3 : 4 * (i+1) + 3 = 4*i+3+1+1+1+1 := by ring
                simp only [interleave4, e3, e2, e1, e0, List.getElem?_cons_succ]
                exact ih bs cs ds i (by omega) (by omega) (by omega) (by omega)

lemma interleave2_getElem : ∀ (ws xs : List Tensor) (i : Nat),
    ws.length = xs.length → i < ws.length →
    (interleave2 ws xs)[2*i]? = ws[i]? ∧ (interleave2 ws xs)[2*i+1]? = xs[i]? := by
  intro ws
  induction ws with
  | nil =>
      intro xs i hb hi
      simp at hi
  | cons x as ih =>
      intro xs i hb hi
      cases xs with
      | nil => simp at hb
      | cons y bs =>
        simp only [List.length_cons] at hb hi
        cases i with
        | zero => simp [interleave2]
        | succ i =>
            have e0 : 2 * (i+1) = 2*i+1+1 := by ring
            have e1 : 2 * (i+1) + 1 = 2*i+1+1+1 := by ring
            simp only [interleave2, e1, e0, List.getElem?_cons_succ]
            exact ih bs i (by omega) (by omega)

lemma wellFormed_constructBase (o : RNNOptionsBase) (mode : Option CuDNNMode)
    (gates device dtype base : Nat) :
    WellFormed (constructBase o mode gates device dtype base) := by
  refine ⟨?_, ?_, ?_, ?_, ?_, ?_, ?_⟩
  · simp [constructBase]
  · simp [constructBase]
  · rcases hbias : o.with_bias with _ | _ <;> simp [constructBase, hbias]
  · intro t ht
    simp only [constructBase, List.mem_map, List.mem_range] at ht
    obtain ⟨i, -, rfl⟩ := ht
    rfl
  · intro t ht
    simp only [constructBase, List.mem_map, List.mem_range] at ht
    obtain ⟨i, -, rfl⟩ := ht
    rfl
  · intro t ht
    rcases hbias : o.with_bias with _ | _ <;>
      simp only [constructBase, hbias, Bool.false_eq_true, if_false, if_true,
        List.not_mem_nil, List.mem_map, List.mem_range] at ht
    obtain ⟨i, -, rfl⟩ := ht
    rfl
  · intro t ht
    rcases hbias : o.with_bias with _ | _ <;>
      simp only [constructBase, hbias, Bool.false_eq_true, if_false, if_true,
        List.not_mem_nil, List.mem_map, List.mem_range] at ht
    obtain ⟨i, -, rfl⟩ := ht
    rfl

lemma wellFormed_construct (o : RNNOptionsBase) (mode : Option CuDNNMode)
    (gates device dtype base : Nat) :
    WellFormed (construct o mode gates device dtype base) :=
  wellFormed_reset (wellFormed_constructBase o mode gates device dtype base)

lemma options_construct (o : RNNOptionsBase) (mode : Option CuDNNMode)
    (gates device dtype base : Nat) :
    (construct o mode gates device dtype base).options = o :=
  options_reset (constructBase o mode gates device dtype base)

/-! ## Claims -/

/-- C4: for the `kTanh` nonlinearity input, `cudnnmode_get_enum` resolves to
`CuDNNMode.RNN_RELU` — the same value it returns for `kReLU` — rather than
`CuDNNMode.RNN_TANH`. -/
theorem cudnnmode_tanh_resolves_to_relu :
    cudnnmode_get_enum Enumtype.kTanh = Except.ok CuDNNMode.RNN_RELU ∧
    cudnnmode_get_enum Enumtype.kTanh = cudnnmode_get_enum Enumtype.kReLU ∧
    cudnnmode_get_enum Enumtype.kTanh ≠ Except.ok CuDNNMode.RNN_TANH := by
  refine ⟨rfl, rfl, ?_⟩
  simp [cudnnmode_get_enum]

/-- C5: for every variant tag that is neither `kReLU` nor `kTanh`,
`cudnnmode_get_enum` takes the `TORCH_CHECK(false, ...)` branch: it raises
the unsupported-configuration error and returns no backend mode. -/
theorem cudnnmode_unsupported_error (v : Enumtype)
    (h1 : v ≠ Enumtype.kReLU) (h2 : v ≠ Enumtype.kTanh) :
    cudnnmode_get_enum v =
      Except.error (get_enum_name v ++ " is not a valid value for CuDNNMode") := by
  cases v <;> simp_all [cudnnmode_get_enum]

/-- Witness for C5 at the concrete tag `kSigmoid`. -/
theorem cudnnmode_unsupported_error_witness :
    (Enumtype.kSigmoid ≠ Enumtype.kReLU ∧ Enumtype.kSigmoid ≠ Enumtype.kTanh) ∧
    cudnnmode_get_enum Enumtype.kSigmoid =
      Except.error (get_enum_name Enumtype.kSigmoid ++ " is not a valid value for CuDNNMode") :=
  ⟨⟨by decide, by decide⟩,
    cudnnmode_unsupported_error Enumtype.kSigmoid (by decide) (by decide)⟩

/-- C3 counterexample: routed through the generic enum lookup, the plain-RNN
nonlinearities `kTanh` and `kReLU` do NOT report failure — both succeed and
return the backend mode `RNN_RELU` (`isOk` is `true`, so the
`TORCH_CHECK(false, ...)` branch is not taken). -/
theorem cudnnmode_tanh_relu_succeed_counterexample :
    cudnnmode_get_enum Enumtype.kTanh = Except.ok CuDNNMode.RNN_RELU ∧
    (cudnnmode_get_enum Enumtype.kTanh).isOk = true ∧
    cudnnmode_get_enum Enumtype.kReLU = Except.ok CuDNNMode.RNN_RELU ∧
    (cudnnmode_get_enum Enumtype.kReLU).isOk = true :=
  ⟨rfl, rfl, rfl, rfl⟩

/-- C3 amended: when given the `tanh` or `relu` nonlinearity of a plain RNN,
`cudnnmode_get_enum` never reports failure: it succeeds and returns the
backend mode `RNN_RELU` in both cases; only tags other than `kReLU`/`kTanh`
take the unsupported-configuration error branch. -/
theorem cudnnmode_tanh_relu_never_fail (v : Enumtype)
    (h : v = Enumtype.kReLU ∨ v = Enumtype.kTanh) :
    cudnnmode_get_enum v = Except.ok CuDNNMode.RNN_RELU := by
  rcases h with rfl | rfl <;> rfl

/-- Witness for the amended C3 at the concrete tag `kTanh`. -/
theorem cudnnmode_tanh_relu_never_fail_witness :
    (Enumtype.kTanh = Enumtype.kReLU ∨ Enumtype.kTanh = Enumtype.kTanh) ∧
    cudnnmode_get_enum Enumtype.kTanh = Except.ok CuDNNMode.RNN_RELU :=
  ⟨Or.inr rfl, cudnnmode_tanh_relu_never_fail Enumtype.kTanh (Or.inr rfl)⟩

/-- C1: `flatten_parameters` surfaces no error — it is a total state
transformer; whenever any two owned parameters alias, or the
backend/data-type/device conditions are incompatible, it clears the
flattened-weights cache and returns normally (silent slow-path degradation),
and the flattened-weights cache it leaves behind is never an aliased view. -/
theorem flatten_parameters_silent_degradation (s : RNNState) (hwf : WellFormed s) :
    ((any_parameters_alias s = true ∨ backend_compatible s = false) →
        (flatten_parameters s).flat_weights_ = []) ∧
    pairwiseAlias (flatten_parameters s).flat_weights_ = false := by
  rcases hcond : (any_parameters_alias s || !backend_compatible s) with _ | _
  · have ha : any_parameters_alias s = false := (Bool.or_eq_false_iff.mp hcond).1
    have hc : backend_compatible s = true := by
      have := (Bool.or_eq_false_iff.mp hcond).2
      simpa using this
    refine ⟨?_, ?_⟩
    · rintro (h | h)
      · rw [h] at ha; cases ha
      · rw [hc] at h; cases h
    · rw [flatten_parameters, hcond]
      simp only [Bool.false_eq_true, if_false]
      exact pairwiseAlias_flat_weights s hwf ha
  · have hempty : (flatten_parameters s).flat_weights_ = [] := by
      rw [flatten_parameters, hcond]
      simp
    exact ⟨fun _ => hempty, by rw [hempty]; rfl⟩

/-- Witness for C1 at the concrete sample module. -/
theorem flatten_parameters_silent_degradation_witness :
    WellFormed sampleModule ∧
    (((any_parameters_alias sampleModule = true ∨
          backend_compatible sampleModule = false) →
        (flatten_parameters sampleModule).flat_weights_ = []) ∧
      pairwiseAlias (flatten_parameters sampleModule).flat_weights_ = false) :=
  ⟨by decide, flatten_parameters_silent_degradation sampleModule (by decide)⟩

/-- C2: for a well-formed module, the flattened sequence lists the parameters
layer slot by layer slot in the fixed interleave order
(w_ih, w_hh, b_ih, b_hh); its length is `4*layers*(bidirectional?2:1)` with
bias and `2*layers*(bidirectional?2:1)` without; it is identical across
invocations for a fixed configuration (it depends only on the options and the
owned parameter sequences); and with no aliasing and a compatible backend,
`flatten_parameters` caches exactly this sequence. -/
theorem flat_weights_interleave_order (s : RNNState) (hwf : WellFormed s) :
    (flat_weights s).length =
      (if s.options.with_bias then 4 else 2) *
        (s.options.layers * num_directions s.options) ∧
    (s.options.with_bias = true →
      ∀ i < s.options.layers * num_directions s.options,
        (flat_weights s)[4*i]? = s.w_ih[i]? ∧ (flat_weights s)[4*i+1]? = s.w_hh[i]? ∧
        (flat_weights s)[4*i+2]? = s.b_ih[i]? ∧ (flat_weights s)[4*i+3]? = s.b_hh[i]?) ∧
    (s.options.with_bias = false →
      ∀ i < s.options.layers * num_directions s.options,
        (flat_weights s)[2*i]? = s.w_ih[i]? ∧ (flat_weights s)[2*i+1]? = s.w_hh[i]?) ∧
    (∀ s2 : RNNState, s2.options = s.options → s2.w_ih = s.w_ih → s2.w_hh = s.w_hh →
      s2.b_ih = s.b_ih → s2.b_hh = s.b_hh → flat_weights s2 = flat_weights s) ∧
    (any_parameters_alias s = false → backend_compatible s = true →
      (flatten_parameters s).flat_weights_ = flat_weights s) := by
  obtain ⟨h1, h2, h3, -⟩ := hwf
  refine ⟨?_, ?_, ?_, ?_, ?_⟩
  · rcases hbias : s.options.with_bias with _ | _
    · rw [hbias, if_neg (by simp)] at h3
      rw [flat_weights, if_neg (by simp [hbias]), if_neg (by simp)]
      rw [interleave2_length s.w_ih s.w_hh (by omega), h1]
    · rw [hbias, if_pos rfl] at h3
      rw [flat_weights, if_pos (by simp [hbias]), if_pos rfl]
      rw [interleave4_length s.w_ih s.w_hh s.b_ih s.b_hh (by omega) (by omega) (by omega), h1]
  · intro hbias i hi
    rw [hbias, if_pos rfl] at h3
    have hfw : flat_weights s = interleave4 s.w_ih s.w_hh s.b_ih s.b_hh := by
      rw [flat_weights, if_pos (by simp [hbias])]
    rw [hfw]
    exact interleave4_getElem s.w_ih s.w_hh s.b_ih s.b_hh i
      (by omega) (by omega) (by omega) (by omega)
  · intro hbias i hi
    have hfw : flat_weights s = interleave2 s.w_ih s.w_hh := by
      rw [flat_weights, if_neg (by simp [hbias])]
    rw [hfw]
    exact interleave2_getElem s.w_ih s.w_hh i (by omega) (by omega)
  · intro s2 ho hw1 hw2 hb1 hb2
    rw [flat_weights, flat_weights, ho, hw1, hw2, hb1, hb2]
  · intro ha hc
    rw [flatten_parameters]
    have : (any_parameters_alias s || !backend_compatible s) = false := by
      rw [ha, hc]
      rfl
    rw [this]
    simp

/-- Witness for C2 at the concrete sample module. -/
theorem flat_weights_interleave_order_witness :
    WellFormed sampleModule ∧
    (flat_weights sampleModule).length =
      (if sampleModule.options.with_bias then 4 else 2) *
        (sampleModule.options.layers * num_directions sampleModule.options) :=
  ⟨by decide, (flat_weights_interleave_order sampleModule (by decide)).1⟩

/-- C6: `any_parameters_alias` is a pure query of the module state (a
function of the owned parameter sequences) and returns `true` iff some two
distinct positions among all owned weight/bias tensors hold tensors sharing
the same underlying storage. -/
theorem any_parameters_alias_iff_shared_storage (s : RNNState) :
    any_parameters_alias s = true ↔
      ∃ (i j : Nat) (hij : i < j) (hj : j < (all_params s).length),
        ((all_params s).get ⟨i, hij.trans hj⟩).storage =
          ((all_params s).get ⟨j, hj⟩).storage := by
  rw [any_parameters_alias, pairwiseAlias_true_iff, List.nodup_iff_getElem?_ne_getElem?]
  push_neg
  constructor
  · rintro ⟨i, j, hij, hj, heq⟩
    rw [List.length_map] at hj
    refine ⟨i, j, hij, hj, ?_⟩
    rw [List.getElem?_map, List.getElem?_map,
      List.getElem?_eq_getElem (hij.trans hj), List.getElem?_eq_getElem hj] at heq
    simpa using heq
  · rintro ⟨i, j, hij, hj, heq⟩
    refine ⟨i, j, hij, by rw [List.length_map]; exact hj, ?_⟩
    rw [List.getElem?_map, List.getElem?_map,
      List.getElem?_eq_getElem (hij.trans hj), List.getElem?_eq_getElem hj]
    simpa using heq

/-- Witness for C6: on a module whose hidden weights were replaced by its
input weights, the query reports the concrete aliased pair (0, 1). -/
theorem any_parameters_alias_iff_shared_storage_witness :
    any_parameters_alias aliasedModule = true :=
  (any_parameters_alias_iff_shared_storage aliasedModule).mpr
    ⟨0, 1, by decide, by decide, by decide⟩

/-- C7: immediately after construction — for every options configuration,
mode, gate count, device, dtype and allocation base — `any_parameters_alias`
returns `false`: freshly allocated weight/bias tensors never share storage. -/
theorem any_parameters_alias_false_after_construct
    (o : RNNOptionsBase) (mode : Option CuDNNMode) (gates device dtype base : Nat) :
    any_parameters_alias (construct o mode gates device dtype base) = false := by
  rw [construct, any_parameters_alias_reset, any_parameters_alias, pairwiseAlias_false_iff]
  simp only [all_params, constructBase]
  rcases hbias : o.with_bias with _ | _
  · simp only [hbias, Bool.false_eq_true, if_false, List.append_nil]
    rw [List.map_append, List.map_map, List.map_map]
    exact nodup_storages2 (o.layers * num_directions o) base
  · simp only [hbias, if_true]
    rw [List.map_append, List.map_append, List.map_append,
      List.map_map, List.map_map, List.map_map, List.map_map]
    exact nodup_storages4 (o.layers * num_directions o) base

/-- Witness for C7 at the concrete sample configuration. -/
theorem any_parameters_alias_false_after_construct_witness :
    any_parameters_alias (construct sampleOptions (some CuDNNMode.RNN_RELU) 1 1 0 100)
      = false :=
  any_parameters_alias_false_after_construct sampleOptions (some CuDNNMode.RNN_RELU) 1 1 0 100

/-- C8: `reset` re-initializes every owned weight and bias tensor (the owned
parameters afterwards are exactly the re-initialized images of the previous
ones, `reset` being the composition of `flatten_parameters` after that
re-initialization), and it is safe to call any number of times in
succession: after every such run the flattened-weights cache is consistent
with the current tensor identities (cleared, or equal to the interleaved view
of the current owned tensors). -/
theorem reset_reinitializes_and_stays_consistent (s : RNNState) (n : Nat) :
    all_params (reset s) = (all_params s).map (initTensor s.options.hidden_size) ∧
    cacheConsistent (reset^[n+1] s) := by
  constructor
  · rw [reset, all_params_flatten]
    simp [reinitParams, all_params]
  · rw [Function.iterate_succ_apply']
    exact cacheConsistent_reset (reset^[n] s)

/-- Witness for C8 at the concrete sample module, one iteration. -/
theorem reset_reinitializes_and_stays_consistent_witness :
    all_params (reset sampleModule) =
      (all_params sampleModule).map (initTensor sampleModule.options.hidden_size) ∧
    cacheConsistent (reset^[0+1] sampleModule) :=
  reset_reinitializes_and_stays_consistent sampleModule 0

/-- C9: after `construct` then `reset`, the input-weight and hidden-weight
sequences both have length `layers*(bidirectional?2:1)`, the bias sequences
have that same length or are empty, and every weight/bias tensor has the
shape derived from `gates*hidden` (the full `WellFormed` invariant holds);
and this invariant is preserved by every operation of the module
(`reset`, `flatten_parameters`, and device/dtype transfer). -/
theorem construct_reset_lengths_shapes_invariant
    (o : RNNOptionsBase) (mode : Option CuDNNMode) (gates device dtype base : Nat) :
    ((reset (construct o mode gates device dtype base)).w_ih.length
        = o.layers * num_directions o ∧
      (reset (construct o mode gates device dtype base)).w_hh.length
        = o.layers * num_directions o ∧
      ((reset (construct o mode gates device dtype base)).b_ih.length
            = o.layers * num_directions o ∧
          (reset (construct o mode gates device dtype base)).b_hh.length
            = o.layers * num_directions o ∨
        (reset (construct o mode gates device dtype base)).b_ih = [] ∧
          (reset (construct o mode gates device dtype base)).b_hh = []) ∧
      WellFormed (reset (construct o mode gates device dtype base))) ∧
    ∀ s2 : RNNState, WellFormed s2 →
      WellFormed (reset s2) ∧ WellFormed (flatten_parameters s2) ∧
        ∀ d dt : Nat, WellFormed (toDeviceDtype s2 d dt) := by
  have hwf : WellFormed (reset (construct o mode gates device dtype base)) :=
    wellFormed_reset (wellFormed_construct o mode gates device dtype base)
  have hopt : (reset (construct o mode gates device dtype base)).options = o := by
    rw [options_reset, options_construct]
  constructor
  · have hwf2 := hwf
    obtain ⟨l1, l2, l3, -⟩ := hwf2
    rw [hopt] at l1 l2 l3
    refine ⟨l1, l2, ?_, hwf⟩
    rcases hbias : o.with_bias with _ | _
    · rw [hbias, if_neg (by simp)] at l3
      exact Or.inr l3
    · rw [hbias, if_pos rfl] at l3
      exact Or.inl l3
  · exact fun s2 h =>
      ⟨wellFormed_reset h, wellFormed_flatten h, fun d dt => wellFormed_toDeviceDtype h d dt⟩

/-- Witness for C9 at the concrete sample configuration, with the
preservation part instantiated at the sample module. -/
theorem construct_reset_lengths_shapes_invariant_witness :
    (reset (construct sampleOptions (some CuDNNMode.RNN_RELU) 1 1 0 100)).w_ih.length
        = sampleOptions.layers * num_directions sampleOptions ∧
    WellFormed (reset sampleModule) :=
  ⟨(construct_reset_lengths_shapes_invariant sampleOptions
      (some CuDNNMode.RNN_RELU) 1 1 0 100).1.1,
    ((construct_reset_lengths_shapes_invariant sampleOptions
        (some CuDNNMode.RNN_RELU) 1 1 0 100).2 sampleModule (by decide)).1⟩

/-- C10: the LSTM forward state is a 2-tuple (hidden, cell) — a structurally
distinct branch (`lstm_forward` consumes and produces `Tensor × Tensor`,
packed in `LSTMOutput`) — with each component of shape
`(layers*(bidirectional?2:1), batch, hiddenSize)`, while PlainRNN and GRU
each use a single state tensor of that same shape in both the input state
and the returned output state. -/
theorem lstm_state_pair_distinct_from_single (s : RNNState)
    (seq batch device dtype : Nat)
    (stl : Option (Tensor × Tensor)) (sts : Option Tensor)
    (hstl : ∀ hc ∈ stl, hc.1.shape = stateShape s.options batch ∧
      hc.2.shape = stateShape s.options batch)
    (hsts : ∀ t ∈ sts, t.shape = stateShape s.options batch) :
    ((lstm_forward s seq batch device dtype stl).hidden.shape
        = stateShape s.options batch ∧
      (lstm_forward s seq batch device dtype stl).cell.shape
        = stateShape s.options batch) ∧
    ((rnn_forward s seq batch device dtype sts).state.shape
        = stateShape s.options batch ∧
      (gru_forward s seq batch device dtype sts).state.shape
        = stateShape s.options batch) ∧
    stateShape s.options batch =
      [s.options.layers * (if s.options.bidirectional then 2 else 1), batch,
        s.options.hidden_size] := by
  refine ⟨?_, ?_, rfl⟩
  · cases stl with
    | none => exact ⟨rfl, rfl⟩
    | some hc =>
        have h := hstl hc (by simp)
        exact ⟨h.1, h.2⟩
  · cases sts with
    | none => exact ⟨rfl, rfl⟩
    | some t =>
        have h := hsts t (by simp)
        exact ⟨h, h⟩

/-- Witness for C10 at the sample module with absent initial states. -/
theorem lstm_state_pair_distinct_from_single_witness :
    ((lstm_forward sampleModule 3 2 1 0 none).hidden.shape
        = stateShape sampleModule.options 2 ∧
      (lstm_forward sampleModule 3 2 1 0 none).cell.shape
        = stateShape sampleModule.options 2) ∧
    ((rnn_forward sampleModule 3 2 1 0 none).state.shape
        = stateShape sampleModule.options 2 ∧
      (gru_forward sampleModule 3 2 1 0 none).state.shape
        = stateShape sampleModule.options 2) ∧
    stateShape sampleModule.options 2 =
      [sampleModule.options.layers *
          (if sampleModule.options.bidirectional then 2 else 1), 2,
        sampleModule.options.hidden_size] :=
  lstm_state_pair_distinct_from_single sampleModule 3 2 1 0 none none
    (by simp) (by simp)

end TorchRNN
